import Mathlib

/-!
Shallow embedding of `src/stock_bot.py` (gamersberg-stock-checker).

The script polls a web page, extracts `(label, statusText)` pairs per item
container, normalizes them (`label.replace(" Seed", "").strip()`,
`re.search(r'Stock:\s*(\d+)', statusText)`), filters against the constant
watch list `TARGET_SEEDS`, appends newly available names to a delta list
while inserting them into the process-lifetime set `notified_seeds`, and
sends at most one email per cycle.  Strings are modelled as Lean `String`
(a list of characters); the regex classes `\s` and `\d` and Python's
`str.strip` are modelled over their ASCII meaning.
-/

namespace StockBot

/-- Characters matched by the regex class `\s` and stripped by `str.strip()`
(ASCII model): space, tab, newline, carriage return, vertical tab, form feed. -/
def isSpaceC (c : Char) : Bool :=
  c = ' ' || c = '\t' || c = '\n' || c = '\r' || c = '\x0b' || c = '\x0c'

/-- Decimal value of a digit run, as `int()` reads the matched group. -/
def digitsToNat (ds : List Char) : Nat :=
  ds.foldl (fun n c => 10 * n + (c.toNat - 48)) 0

/-- The literal label token of the regex `Stock:\s*(\d+)`. -/
def stockPat : List Char := "Stock:".data

/-- One anchored attempt of the regex `Stock:\s*(\d+)` at the head of `cs`:
the literal `Stock:`, then a maximal whitespace run, then at least one digit
(`\s` and `\d` are disjoint, so the greedy match needs no backtracking). -/
def stockMatchAt (cs : List Char) : Option Nat :=
  if cs.take 6 = stockPat then
    let ds := ((cs.drop 6).dropWhile isSpaceC).takeWhile Char.isDigit
    if ds = [] then none else some (digitsToNat ds)
  else none

/-- `re.search`: try the anchored match at every position, leftmost first. -/
def scanStock : List Char → Option Nat
  | [] => none
  | c :: cs =>
    match stockMatchAt (c :: cs) with
    | some n => some n
    | none => scanStock cs

/-- `match = re.search(r'Stock:\s*(\d+)', stock_text)`;
`quantity = int(match.group(1)) if match else 0`  (stock_bot.py:108-109). -/
def parse_quantity (s : String) : Nat :=
  (scanStock s.data).getD 0

/-- `seed_name.replace(" Seed", "")`: remove every (leftmost-first,
non-overlapping) occurrence of the substring `" Seed"`. -/
def replaceSeed : List Char → List Char
  | ' ' :: 'S' :: 'e' :: 'e' :: 'd' :: rest => replaceSeed rest
  | c :: cs => c :: replaceSeed cs
  | [] => []

/-- Python `str.strip()`: drop whitespace from both ends. -/
def pyStrip (cs : List Char) : List Char :=
  ((cs.dropWhile isSpaceC).reverse.dropWhile isSpaceC).reverse

/-- `cleaned_seed_name = seed_name.replace(" Seed", "").strip()`
(stock_bot.py:107). -/
def cleanName (label : String) : String :=
  ⟨pyStrip (replaceSeed label.data)⟩

/-- The fixed suffix token of the spec, as a character list. -/
def seedSuffix : List Char := " Seed".data

/-- The normalization described by the spec sentence under scrutiny: strip
the fixed suffix token `" Seed"` only when it is a trailing suffix of the
label, then trim whitespace; no other part of the label is altered. -/
def stripTrailingSeed (cs : List Char) : List Char :=
  if cs.reverse.take 5 = seedSuffix.reverse then cs.take (cs.length - 5) else cs

/-- Spec-side canonical name: trailing-suffix strip, then trim. -/
def specCleanTrailing (label : String) : String :=
  ⟨pyStrip (stripTrailingSeed label.data)⟩

/-- Prepend a character to the first group of a split. -/
def consHead (c : Char) : List (List Char) → List (List Char)
  | [] => [[c]]
  | g :: gs => (c :: g) :: gs

/-- Split a character list on every (leftmost-first, non-overlapping)
occurrence of `" Seed"`, the way Python's `split(" Seed")` groups a string;
joining the groups is exactly removal of every occurrence. -/
def splitOnSeed : List Char → List (List Char)
  | ' ' :: 'S' :: 'e' :: 'e' :: 'd' :: rest => [] :: splitOnSeed rest
  | c :: cs => consHead c (splitOnSeed cs)
  | [] => [[]]

/-- The constant watch list (stock_bot.py:22). -/
def TARGET_SEEDS : List String :=
  ["Beanstalk", "Burning Bud", "Giant Pinecone", "Sugar Apple", "Tomato",
   "Elder Strawberry", "Ember Lily"]

/-- One raw observation: the `h2` text and the stock `p` text of an item
container. -/
structure RawItem where
  label : String
  statusText : String
deriving DecidableEq

/-- `f"{cleaned_seed_name}: {quantity} available!"` (stock_bot.py:114). -/
def availLine (name : String) (q : Nat) : String :=
  name ++ ": " ++ toString q ++ " available!"

/-- The mutable state of the per-item loop (stock_bot.py:88-121):
`newly_available_seeds` (the formatted delta lines, in append order) and the
process-lifetime set `notified_seeds`. -/
structure ScanState where
  newly : List String
  notified : Finset String
deriving DecidableEq

/-- One iteration of the per-item loop (stock_bot.py:90-121).  `none` stands
for an item whose sub-element extraction raised (per-item timeout or error):
the `except` branch skips it with `continue`, touching no state. -/
def stepItem (watch : List String) (st : ScanState) (it : Option RawItem) : ScanState :=
  match it with
  | none => st
  | some item =>
    let name := cleanName item.label
    let q := parse_quantity item.statusText
    if name ∈ watch then
      if 0 < q ∧ name ∉ st.notified then
        { newly := st.newly ++ [availLine name q], notified := insert name st.notified }
      else st
    else st

/-- The whole per-item loop, started from `newly_available_seeds = []`
(stock_bot.py:88) and the current `notified_seeds`. -/
def processItems (watch : List String) (items : List (Option RawItem))
    (notified : Finset String) : ScanState :=
  items.foldl (stepItem watch) ⟨[], notified⟩

/-- Failures of the acquisition phase (stock_bot.py:60-82): browser launch,
`page.goto`, or the main `wait_for_selector`, all caught at
stock_bot.py:132-136. -/
inductive AcqError
  | launchFailure
  | navTimeout
  | selectorTimeout
  | otherError
deriving DecidableEq

/-- What one poll cycle gets from the renderer: either an acquisition-phase
failure, or the list of item containers (each one either a well-extracted
`(label, statusText)` pair or `none` for a per-item extraction failure). -/
inductive FetchResult
  | fail (e : AcqError)
  | ok (items : List (Option RawItem))
deriving DecidableEq

/-- Observable outcome of one poll cycle. -/
inductive CycleOutcome
  | Notified (subject body : String)
  | NoChange
  | Failed
deriving DecidableEq

/-- Result of `send_email_notification` (stock_bot.py:31-52): early return on
the disabled flag, early return on incomplete config, otherwise an SMTP
attempt whose failure is caught inside the function (it never raises). -/
inductive EmailResult
  | disabled
  | incompleteConfig
  | sent
  | sendFailed
deriving DecidableEq

/-- The Gmail configuration read from the environment (stock_bot.py:23-26);
`none` models an unset variable. -/
structure EmailConfig where
  enable : Bool
  sender : Option String
  password : Option String
  recipient : Option String
deriving DecidableEq

/-- Python truthiness of an optional string: `None` and `""` are falsy. -/
def optFalsy : Option String → Bool
  | none => true
  | some s => s.isEmpty

/-- `send_email_notification(subject, body)` (stock_bot.py:31-52).  The
delivery outcome `deliveryOk` models the SMTP interaction; the function
returns in every case. -/
def send_email_notification (cfg : EmailConfig) (deliveryOk : Bool) : EmailResult :=
  if cfg.enable = false then .disabled
  else if optFalsy cfg.sender || optFalsy cfg.password || optFalsy cfg.recipient then
    .incompleteConfig
  else if deliveryOk then .sent else .sendFailed

/-- What one poll cycle leaves behind: its outcome, the new value of
`notified_seeds`, and the result of the email call when one was made. -/
structure CycleResult where
  outcome : CycleOutcome
  notified : Finset String
  email : Option EmailResult
deriving DecidableEq

/-- Subject line of the alert email (stock_bot.py:126). -/
def ALERT_SUBJECT : String := "Gamersberg Stock Alert! NEWLY AVAILABLE!"

/-- One run of `check_stock_async` (stock_bot.py:54-141).  On acquisition
failure the `except` branches log and fall through: no state change, no
email.  Otherwise the per-item loop runs, and `if newly_available_seeds:`
sends a single email whose body joins the delta lines with newlines
(stock_bot.py:124-130). -/
def check_stock (cfg : EmailConfig) (deliveryOk : Bool) (fetch : FetchResult)
    (notified : Finset String) : CycleResult :=
  match fetch with
  | .fail _ => ⟨.Failed, notified, none⟩
  | .ok items =>
    let st := processItems TARGET_SEEDS items notified
    if st.newly = [] then ⟨.NoChange, st.notified, none⟩
    else
      ⟨.Notified ALERT_SUBJECT (String.intercalate "\n" st.newly), st.notified,
        some (send_email_notification cfg deliveryOk)⟩

/-- The pair-level view of the delta the loop computes: the `(name, quantity)`
pairs appended to `newly_available_seeds`, in order, with the name inserted
into the notified set immediately upon appending. -/
def computeDelta (watch : List String) : Finset String → List (Option RawItem) → List (String × Nat)
  | _, [] => []
  | s, none :: rest => computeDelta watch s rest
  | s, some item :: rest =>
    let name := cleanName item.label
    let q := parse_quantity item.statusText
    if name ∈ watch ∧ 0 < q ∧ name ∉ s then
      (name, q) :: computeDelta watch (insert name s) rest
    else computeDelta watch s rest

/-- The notified set left by the per-item loop, pair-level view. -/
def notifAfter (watch : List String) : Finset String → List (Option RawItem) → Finset String
  | s, [] => s
  | s, none :: rest => notifAfter watch s rest
  | s, some item :: rest =>
    let name := cleanName item.label
    let q := parse_quantity item.statusText
    if name ∈ watch ∧ 0 < q ∧ name ∉ s then notifAfter watch (insert name s) rest
    else notifAfter watch s rest

/-- Names in the delta of one cycle. -/
def deltaNames (watch : List String) (s : Finset String) (items : List (Option RawItem)) :
    List String :=
  (computeDelta watch s items).map Prod.fst

/-- Names in the delta of one `check_stock` cycle (empty when acquisition
failed: the loop never runs). -/
def cycleDeltaNames (fetch : FetchResult) (s : Finset String) : List String :=
  match fetch with
  | .fail _ => []
  | .ok items => deltaNames TARGET_SEEDS s items

/-- The evolution of `notified_seeds` over a sequence of later cycles, each
with its own config, delivery outcome and fetch result
(`run_stock_checker_loop`, stock_bot.py:143-151). -/
def runNotified : List (EmailConfig × Bool × FetchResult) → Finset String → Finset String
  | [], s => s
  | c :: rest, s => runNotified rest (check_stock c.1 c.2.1 c.2.2 s).notified

/-! Bridging lemmas: the per-item fold agrees with the pair-level view. -/

lemma foldl_stepItem (watch : List String) (items : List (Option RawItem)) :
    ∀ (s : Finset String) (acc : List String),
      items.foldl (stepItem watch) ⟨acc, s⟩ =
        ⟨acc ++ (computeDelta watch s items).map (fun p => availLine p.1 p.2),
          notifAfter watch s items⟩ := by
  induction items with
  | nil => intro s acc; simp [computeDelta, notifAfter]
  | cons it rest ih =>
    intro s acc
    match it with
    | none => simpa [stepItem, computeDelta, notifAfter] using ih s acc
    | some item =>
      simp only [List.foldl_cons, stepItem]
      by_cases hw : cleanName item.label ∈ watch
      · by_cases hq : 0 < parse_quantity item.statusText ∧ cleanName item.label ∉ s
        · simp [hw, hq, computeDelta, notifAfter, ih, List.append_assoc]
        · simp [hw, hq, computeDelta, notifAfter, ih]
      · simp [hw, computeDelta, notifAfter, ih]

lemma processItems_eq (watch : List String) (items : List (Option RawItem))
    (notified : Finset String) :
    processItems watch items notified =
      ⟨(computeDelta watch notified items).map (fun p => availLine p.1 p.2),
        notifAfter watch notified items⟩ := by
  simpa [processItems] using foldl_stepItem watch items notified []

@[simp] lemma deltaNames_nil (watch : List String) (s : Finset String) :
    deltaNames watch s [] = [] := rfl

@[simp] lemma deltaNames_none_cons (watch : List String) (s : Finset String)
    (rest : List (Option RawItem)) :
    deltaNames watch s (none :: rest) = deltaNames watch s rest := rfl

lemma deltaNames_some_cons (watch : List String) (s : Finset String) (item : RawItem)
    (rest : List (Option RawItem)) :
    deltaNames watch s (some item :: rest) =
      if cleanName item.label ∈ watch ∧ 0 < parse_quantity item.statusText ∧
          cleanName item.label ∉ s then
        cleanName item.label :: deltaNames watch (insert (cleanName item.label) s) rest
      else deltaNames watch s rest := by
  simp only [deltaNames, computeDelta]
  split <;> simp

@[simp] lemma notifAfter_nil (watch : List String) (s : Finset String) :
    notifAfter watch s [] = s := rfl

@[simp] lemma notifAfter_none_cons (watch : List String) (s : Finset String)
    (rest : List (Option RawItem)) :
    notifAfter watch s (none :: rest) = notifAfter watch s rest := rfl

lemma notifAfter_some_cons (watch : List String) (s : Finset String) (item : RawItem)
    (rest : List (Option RawItem)) :
    notifAfter watch s (some item :: rest) =
      if cleanName item.label ∈ watch ∧ 0 < parse_quantity item.statusText ∧
          cleanName item.label ∉ s then
        notifAfter watch (insert (cleanName item.label) s) rest
      else notifAfter watch s rest := by
  simp only [notifAfter]

lemma mem_deltaNames_iff (watch : List String) (name : String)
    (items : List (Option RawItem)) :
    ∀ s : Finset String,
      name ∈ deltaNames watch s items ↔
        name ∉ s ∧ name ∈ watch ∧
          ∃ item : RawItem, some item ∈ items ∧ cleanName item.label = name ∧
            0 < parse_quantity item.statusText := by
  induction items with
  | nil => intro s; simp
  | cons it rest ih =>
    intro s
    match it with
    | none => simpa using ih s
    | some item =>
      rw [deltaNames_some_cons]
      by_cases hc : cleanName item.label ∈ watch ∧ 0 < parse_quantity item.statusText ∧
          cleanName item.label ∉ s
      · rw [if_pos hc]
        simp only [List.mem_cons, ih, Finset.mem_insert, List.mem_cons]
        constructor
        · rintro (rfl | ⟨hni, hw, item', hmem, hname, hq⟩)
          · exact ⟨hc.2.2, hc.1, item, Or.inl rfl, rfl, hc.2.1⟩
          · push_neg at hni
            exact ⟨hni.2, hw, item', Or.inr hmem, hname, hq⟩
        · rintro ⟨hns, hw, item', hmem', hname, hq⟩
          by_cases heq : name = cleanName item.label
          · exact Or.inl heq
          · refine Or.inr ⟨?_, hw, item', ?_, hname, hq⟩
            · simp [hns, heq]
            · rcases hmem' with h | h
              · exact absurd (Option.some.inj h ▸ hname) (by simpa using Ne.symm heq)
              · exact h
      · rw [if_neg hc]
        rw [ih s]
        constructor
        · rintro ⟨hns, hw, item', hmem, hname, hq⟩
          exact ⟨hns, hw, item', List.mem_cons_of_mem _ hmem, hname, hq⟩
        · rintro ⟨hns, hw, item', hmem', hname, hq⟩
          rcases List.mem_cons.mp hmem' with h | h
          · exfalso
            have : item' = item := Option.some.inj h
            subst this
            exact hc ⟨hname ▸ hw, hq, hname ▸ hns⟩
          · exact ⟨hns, hw, item', h, hname, hq⟩

lemma nodup_deltaNames (watch : List String) (items : List (Option RawItem)) :
    ∀ s : Finset String, (deltaNames watch s items).Nodup := by
  induction items with
  | nil => intro s; simp
  | cons it rest ih =>
    intro s
    match it with
    | none => simpa using ih s
    | some item =>
      rw [deltaNames_some_cons]
      split
      · refine List.nodup_cons.mpr ⟨fun hmem => ?_, ih _⟩
        rw [mem_deltaNames_iff] at hmem
        exact hmem.1 (Finset.mem_insert_self _ _)
      · exact ih s

lemma mem_notifAfter_iff (watch : List String) (name : String)
    (items : List (Option RawItem)) :
    ∀ s : Finset String,
      name ∈ notifAfter watch s items ↔ name ∈ s ∨ name ∈ deltaNames watch s items := by
  induction items with
  | nil => intro s; simp
  | cons it rest ih =>
    intro s
    match it with
    | none => simpa using ih s
    | some item =>
      rw [notifAfter_some_cons, deltaNames_some_cons]
      split
      · rw [ih]
        simp only [Finset.mem_insert, List.mem_cons]
        tauto
      · exact ih s

lemma subset_notifAfter (watch : List String) (items : List (Option RawItem))
    (s : Finset String) : s ⊆ notifAfter watch s items := by
  intro x hx
  exact (mem_notifAfter_iff watch x items s).mpr (Or.inl hx)

/-! Lemmas about one whole `check_stock` cycle. -/

lemma check_stock_ok_eq (cfg : EmailConfig) (d : Bool) (items : List (Option RawItem))
    (s : Finset String) :
    check_stock cfg d (.ok items) s =
      if computeDelta TARGET_SEEDS s items = [] then
        ⟨.NoChange, notifAfter TARGET_SEEDS s items, none⟩
      else
        ⟨.Notified ALERT_SUBJECT
            (String.intercalate "\n"
              ((computeDelta TARGET_SEEDS s items).map (fun p => availLine p.1 p.2))),
          notifAfter TARGET_SEEDS s items, some (send_email_notification cfg d)⟩ := by
  simp only [check_stock, processItems_eq, List.map_eq_nil_iff]

lemma check_stock_notified_ok (cfg : EmailConfig) (d : Bool) (items : List (Option RawItem))
    (s : Finset String) :
    (check_stock cfg d (.ok items) s).notified = notifAfter TARGET_SEEDS s items := by
  rw [check_stock_ok_eq]
  split <;> rfl

lemma subset_check_stock_notified (cfg : EmailConfig) (d : Bool) (f : FetchResult)
    (s : Finset String) : s ⊆ (check_stock cfg d f s).notified := by
  match f with
  | .fail e => exact Finset.Subset.refl s
  | .ok items =>
    rw [check_stock_notified_ok]
    exact subset_notifAfter _ _ _

lemma subset_runNotified (rest : List (EmailConfig × Bool × FetchResult)) :
    ∀ s : Finset String, s ⊆ runNotified rest s := by
  induction rest with
  | nil => intro s; exact Finset.Subset.refl s
  | cons c rest ih =>
    intro s
    exact (subset_check_stock_notified c.1 c.2.1 c.2.2 s).trans (ih _)

lemma not_mem_cycleDeltaNames_of_notified {name : String} {f : FetchResult}
    {s : Finset String} (h : name ∈ s) : name ∉ cycleDeltaNames f s := by
  match f with
  | .fail e => simp [cycleDeltaNames]
  | .ok items =>
    intro hmem
    rw [cycleDeltaNames, mem_deltaNames_iff] at hmem
    exact hmem.1 h

lemma mem_notified_of_mem_cycleDeltaNames {cfg : EmailConfig} {d : Bool} {f : FetchResult}
    {s : Finset String} {name : String} (h : name ∈ cycleDeltaNames f s) :
    name ∈ (check_stock cfg d f s).notified := by
  match f with
  | .fail e => simp [cycleDeltaNames] at h
  | .ok items =>
    rw [check_stock_notified_ok]
    exact (mem_notifAfter_iff _ _ _ _).mpr (Or.inr h)

/-! Lemmas about the regex scan of `parse_quantity`. -/

lemma stockMatchAt_nil : stockMatchAt [] = none := rfl

lemma scanStock_of_first_match :
    ∀ (i : Nat) (cs : List Char) (n : Nat),
      stockMatchAt (cs.drop i) = some n →
      (∀ j, j < i → stockMatchAt (cs.drop j) = none) →
      scanStock cs = some n := by
  intro i
  induction i with
  | zero =>
    intro cs n h _
    match cs with
    | [] =>
      rw [List.drop_zero, stockMatchAt_nil] at h
      exact absurd h (by simp)
    | c :: cs' =>
      rw [List.drop_zero] at h
      unfold scanStock
      rw [h]
  | succ i ih =>
    intro cs n h hj
    match cs with
    | [] =>
      rw [List.drop_nil, stockMatchAt_nil] at h
      exact absurd h (by simp)
    | c :: cs' =>
      have h0 : stockMatchAt (c :: cs') = none := by
        have := hj 0 (Nat.succ_pos i)
        rwa [List.drop_zero] at this
      unfold scanStock
      rw [h0]
      refine ih cs' n ?_ ?_
      · rwa [List.drop_succ_cons] at h
      · intro j hjlt
        have := hj (j + 1) (by omega)
        rwa [List.drop_succ_cons] at this

lemma scanStock_of_no_match :
    ∀ cs : List Char, (∀ i, stockMatchAt (cs.drop i) = none) → scanStock cs = none := by
  intro cs
  induction cs with
  | nil => intro _; rfl
  | cons c cs' ih =>
    intro h
    have h0 := h 0
    rw [List.drop_zero] at h0
    unfold scanStock
    rw [h0]
    exact ih fun i => by
      have := h (i + 1)
      rwa [List.drop_succ_cons] at this

/-! Lemmas relating `replaceSeed` to removal of every occurrence. -/

lemma consHead_flatten (c : Char) (l : List (List Char)) :
    (consHead c l).flatten = c :: l.flatten := by
  match l with
  | [] => rfl
  | g :: gs => rfl

lemma replaceSeed_eq_flatten_splitOnSeed :
    ∀ cs : List Char, replaceSeed cs = (splitOnSeed cs).flatten := by
  intro cs
  induction cs using replaceSeed.induct with
  | case1 rest ih => simp [replaceSeed, splitOnSeed, ih]
  | case2 c cs ih h => simp [replaceSeed, splitOnSeed, consHead_flatten, h]
  | case3 => rfl

/-- C1: one-shot notification dedup.  Once a cycle's delta includes a name
(observed with positive quantity and not yet notified), that name is not in
the delta of any later cycle of the same process lifetime, whatever the
later snapshots observe; and `notified_seeds` only ever grows, both over a
single cycle and over any sequence of cycles. -/
theorem dedup_one_shot :
    (∀ (cfg : EmailConfig) (d : Bool) (f : FetchResult) (s : Finset String) (name : String),
        name ∈ cycleDeltaNames f s →
        ∀ (rest : List (EmailConfig × Bool × FetchResult)) (g : FetchResult),
          name ∉ cycleDeltaNames g (runNotified rest (check_stock cfg d f s).notified))
  ∧ (∀ (cfg : EmailConfig) (d : Bool) (f : FetchResult) (s : Finset String),
        s ⊆ (check_stock cfg d f s).notified)
  ∧ (∀ (rest : List (EmailConfig × Bool × FetchResult)) (s : Finset String),
        s ⊆ runNotified rest s) := by
  refine ⟨?_, subset_check_stock_notified, subset_runNotified⟩
  intro cfg d f s name hmem rest g
  exact not_mem_cycleDeltaNames_of_notified
    (subset_runNotified rest _ (mem_notified_of_mem_cycleDeltaNames hmem))

/-- Witness for `dedup_one_shot` at the spec's Scenario A/B: "Beanstalk" is
in the first cycle's delta and not in the next cycle's, even at quantity 5. -/
theorem dedup_one_shot_witness :
    "Beanstalk" ∈ cycleDeltaNames (.ok [some ⟨"Beanstalk Seed", "Stock: 3"⟩]) ∅ ∧
    "Beanstalk" ∉ cycleDeltaNames (.ok [some ⟨"Beanstalk Seed", "Stock: 5"⟩])
      (runNotified []
        (check_stock ⟨false, none, none, none⟩ true
          (.ok [some ⟨"Beanstalk Seed", "Stock: 3"⟩]) ∅).notified) :=
  ⟨by decide,
    dedup_one_shot.1 ⟨false, none, none, none⟩ true
      (.ok [some ⟨"Beanstalk Seed", "Stock: 3"⟩]) ∅ "Beanstalk" (by decide) []
      (.ok [some ⟨"Beanstalk Seed", "Stock: 5"⟩])⟩

/-- C3: within-cycle duplicate suppression.  The delta of any single
snapshot never repeats a name (the name enters `notified_seeds` the moment
it is appended, not at the end of the loop); in particular a snapshot that
carries a watched, not-yet-notified name twice, both times with positive
quantity, puts it in the delta exactly once. -/
theorem duplicate_suppression :
    (∀ (watch : List String) (s : Finset String) (items : List (Option RawItem))
        (name : String), (deltaNames watch s items).count name ≤ 1)
  ∧ (∀ (watch : List String) (s : Finset String) (items : List (Option RawItem))
        (name : String) (i j : Nat) (a b : RawItem),
        items.get? i = some (some a) → items.get? j = some (some b) → i ≠ j →
        cleanName a.label = name → cleanName b.label = name →
        0 < parse_quantity a.statusText → 0 < parse_quantity b.statusText →
        name ∈ watch → name ∉ s →
        (deltaNames watch s items).count name = 1) := by
  constructor
  · intro watch s items name
    exact List.nodup_iff_count_le_one.mp (nodup_deltaNames watch items s) name
  · intro watch s items name i j a b hi _ _ ha _ hqa _ hw hs
    refine List.count_eq_one_of_mem (nodup_deltaNames watch items s) ?_
    rw [mem_deltaNames_iff]
    exact ⟨hs, hw, a, List.get?_mem hi, ha, hqa⟩

/-- Witness for `duplicate_suppression` at the spec's Scenario D: two
"Beanstalk Seed" containers, both "Stock: 1", one delta entry. -/
theorem duplicate_suppression_witness :
    (deltaNames TARGET_SEEDS ∅
      [some ⟨"Beanstalk Seed", "Stock: 1"⟩, some ⟨"Beanstalk Seed", "Stock: 1"⟩]).count
        "Beanstalk" = 1 :=
  duplicate_suppression.2 TARGET_SEEDS ∅
    [some ⟨"Beanstalk Seed", "Stock: 1"⟩, some ⟨"Beanstalk Seed", "Stock: 1"⟩] "Beanstalk"
    0 1 ⟨"Beanstalk Seed", "Stock: 1"⟩ ⟨"Beanstalk Seed", "Stock: 1"⟩
    (by decide) (by decide) (by decide) (by decide) (by decide) (by decide) (by decide)
    (by decide) (by decide)

/-- C4: acquisition-failure atomicity.  Whatever the acquisition failure
(launch failure, navigation timeout, selector-wait timeout, other error),
the cycle ends `Failed`, `notified_seeds` is exactly its value at cycle
start, and no email call is made. -/
theorem acquisition_failure_atomic :
    ∀ (cfg : EmailConfig) (d : Bool) (e : AcqError) (s : Finset String),
      (check_stock cfg d (.fail e) s).outcome = .Failed ∧
      (check_stock cfg d (.fail e) s).notified = s ∧
      (check_stock cfg d (.fail e) s).email = none :=
  fun _ _ _ _ => ⟨rfl, rfl, rfl⟩

/-- C5: no rollback on notifier failure.  The value of `notified_seeds`
after a cycle does not depend on the email configuration or on whether SMTP
delivery succeeded (all delta names are inserted during the loop, before
`send_email_notification` is called, and its failure is caught inside it);
and every delta name is in the final notified set. -/
theorem notifier_failure_no_rollback :
    (∀ (cfg cfg' : EmailConfig) (d d' : Bool) (f : FetchResult) (s : Finset String),
        (check_stock cfg d f s).notified = (check_stock cfg' d' f s).notified)
  ∧ (∀ (cfg : EmailConfig) (d : Bool) (f : FetchResult) (s : Finset String) (name : String),
        name ∈ cycleDeltaNames f s → name ∈ (check_stock cfg d f s).notified) := by
  constructor
  · intro cfg cfg' d d' f s
    match f with
    | .fail e => rfl
    | .ok items => rw [check_stock_notified_ok, check_stock_notified_ok]
  · intro cfg d f s name h
    exact mem_notified_of_mem_cycleDeltaNames h

/-- Witness for `notifier_failure_no_rollback`: with delivery failing
(`deliveryOk = false`), "Tomato" is still marked notified. -/
theorem notifier_failure_no_rollback_witness :
    "Tomato" ∈ (check_stock ⟨true, some "a@b", some "pw", some "c@d"⟩ false
      (.ok [some ⟨"Tomato Seed", "Stock: 2"⟩]) ∅).notified :=
  notifier_failure_no_rollback.2 ⟨true, some "a@b", some "pw", some "c@d"⟩ false
    (.ok [some ⟨"Tomato Seed", "Stock: 2"⟩]) ∅ "Tomato" (by decide)

/-- Refutes C2 as stated: when the extractor returns zero item containers
the loop body never runs, `newly_available_seeds` stays empty, and the code
takes the `else` branch ("No new target seeds available"), i.e. the cycle
ends `NoChange`, not `Failed` — there is no empty-extraction check in
`check_stock_async`. -/
theorem empty_extraction_counterexample :
    (check_stock ⟨false, none, none, none⟩ true (.ok []) ∅).outcome = .NoChange ∧
    (check_stock ⟨false, none, none, none⟩ true (.ok []) ∅).outcome ≠ .Failed := by
  decide

/-- C2 as amended: a successful acquisition whose extraction yields zero
containers, or only observations outside the watch list, ends the cycle as
`NoChange` with an unchanged notified set and no email call — a silent
empty-delta cycle, never `Failed` (`Failed` arises only from the
acquisition phase). -/
theorem empty_extraction_yields_no_change :
    ∀ (cfg : EmailConfig) (d : Bool) (s : Finset String) (items : List (Option RawItem)),
      (∀ r : RawItem, some r ∈ items → cleanName r.label ∉ TARGET_SEEDS) →
      (check_stock cfg d (.ok items) s).outcome = .NoChange ∧
      (check_stock cfg d (.ok items) s).notified = s ∧
      (check_stock cfg d (.ok items) s).email = none := by
  intro cfg d s items h
  have hΔ : computeDelta TARGET_SEEDS s items = [] := by
    by_contra hne
    obtain ⟨p, hp⟩ := List.exists_mem_of_ne_nil _ hne
    have hmemd : p.1 ∈ deltaNames TARGET_SEEDS s items := List.mem_map_of_mem _ hp
    rw [mem_deltaNames_iff] at hmemd
    obtain ⟨_, hw, item, hmem, hname, _⟩ := hmemd
    exact h item hmem (by rwa [hname])
  rw [check_stock_ok_eq, if_pos hΔ]
  refine ⟨rfl, ?_, rfl⟩
  apply Finset.Subset.antisymm
  · intro x hx
    rw [mem_notifAfter_iff] at hx
    rcases hx with hx | hx
    · exact hx
    · rw [deltaNames, hΔ] at hx
      simp at hx
  · exact subset_notifAfter _ _ _

/-- Witness for `empty_extraction_yields_no_change`: zero containers. -/
theorem empty_extraction_yields_no_change_witness :
    (check_stock ⟨false, none, none, none⟩ false (.ok []) ∅).outcome = .NoChange ∧
    (check_stock ⟨false, none, none, none⟩ false (.ok []) ∅).notified = ∅ ∧
    (check_stock ⟨false, none, none, none⟩ false (.ok []) ∅).email = none :=
  empty_extraction_yields_no_change ⟨false, none, none, none⟩ false ∅ []
    (fun _ hr => absurd hr (List.not_mem_nil _))

/-- Refutes C6 as stated: `seed_name.replace(" Seed", "")` removes every
occurrence of `" Seed"`, not only a trailing suffix token.  On the label
"Beanstalk Seedling" the code produces "Beanstalkling", while stripping only
a trailing `" Seed"` token would leave the label unchanged. -/
theorem clean_name_not_trailing_only :
    cleanName "Beanstalk Seedling" = "Beanstalkling" ∧
    specCleanTrailing "Beanstalk Seedling" = "Beanstalk Seedling" ∧
    cleanName "Beanstalk Seedling" ≠ specCleanTrailing "Beanstalk Seedling" := by
  decide

/-- C6 as amended: the canonical item name is the raw label with every
(leftmost-first, non-overlapping) occurrence of the substring `" Seed"`
removed — equivalently, the label split on that token and the pieces
concatenated — then surrounding whitespace trimmed. -/
theorem clean_name_removes_every_occurrence :
    ∀ label : String, cleanName label = ⟨pyStrip (splitOnSeed label.data).flatten⟩ := by
  intro label
  rw [cleanName, replaceSeed_eq_flatten_splitOnSeed]

/-- C7: lenient quantity parsing.  `parse_quantity` returns the integer of
the leftmost anchored match of `Stock:\s*(\d+)` when one exists, and `0`
when no position of the text matches; it is a total function into `Nat`, so
it never raises and its result is always a non-negative integer. -/
theorem parse_quantity_lenient :
    (∀ (s : String) (i n : Nat),
        stockMatchAt (s.data.drop i) = some n →
        (∀ j, j < i → stockMatchAt (s.data.drop j) = none) →
        parse_quantity s = n)
  ∧ (∀ s : String,
        (∀ i, i < s.data.length → stockMatchAt (s.data.drop i) = none) →
        parse_quantity s = 0) := by
  constructor
  · intro s i n h hj
    rw [parse_quantity, scanStock_of_first_match i s.data n h hj]
    rfl
  · intro s h
    rw [parse_quantity, scanStock_of_no_match s.data ?_]
    · rfl
    · intro i
      by_cases hi : i < s.data.length
      · exact h i hi
      · rw [List.drop_eq_nil_of_le (by omega)]
        exact stockMatchAt_nil

/-- Witness for `parse_quantity_lenient`: a matching text parses to its
number, a text with no `Stock:` match parses to 0. -/
theorem parse_quantity_lenient_witness :
    parse_quantity "Stock: 3" = 3 ∧ parse_quantity "Out of stock" = 0 :=
  ⟨parse_quantity_lenient.1 "Stock: 3" 0 3 (by decide)
      (fun j hj => absurd hj (Nat.not_lt_zero j)),
    parse_quantity_lenient.2 "Out of stock" (by decide)⟩

/-- C8: watch-list filter.  A name outside `TARGET_SEEDS` is never in a
cycle's delta and is never inserted into `notified_seeds`, whatever its
parsed quantity. -/
theorem watch_filter :
    ∀ (cfg : EmailConfig) (d : Bool) (s : Finset String) (items : List (Option RawItem))
      (name : String),
      name ∉ TARGET_SEEDS →
      name ∉ cycleDeltaNames (.ok items) s ∧
      (name ∈ (check_stock cfg d (.ok items) s).notified ↔ name ∈ s) := by
  intro cfg d s items name hw
  have hd : name ∉ deltaNames TARGET_SEEDS s items := by
    intro h
    rw [mem_deltaNames_iff] at h
    exact hw h.2.1
  refine ⟨hd, ?_⟩
  rw [check_stock_notified_ok, mem_notifAfter_iff]
  constructor
  · rintro (h | h)
    · exact h
    · exact absurd h hd
  · exact Or.inl

/-- Witness for `watch_filter`: "Carrot" is not watched; at quantity 9 it is
neither in the delta nor inserted. -/
theorem watch_filter_witness :
    "Carrot" ∉ cycleDeltaNames (.ok [some ⟨"Carrot Seed", "Stock: 9"⟩]) ∅ ∧
    ("Carrot" ∈ (check_stock ⟨false, none, none, none⟩ true
        (.ok [some ⟨"Carrot Seed", "Stock: 9"⟩]) ∅).notified ↔
      "Carrot" ∈ (∅ : Finset String)) :=
  watch_filter ⟨false, none, none, none⟩ true ∅ [some ⟨"Carrot Seed", "Stock: 9"⟩]
    "Carrot" (by decide)

/-- C9: notification format and batching.  A cycle with a non-empty delta
produces exactly one email call, with the fixed subject and a body that
newline-joins one line `"<name>: <quantity> available!"` per delta entry, in
delta order; a cycle with an empty delta makes no email call. -/
theorem notification_single_batched :
    ∀ (cfg : EmailConfig) (d : Bool) (items : List (Option RawItem)) (s : Finset String),
      (computeDelta TARGET_SEEDS s items ≠ [] →
        check_stock cfg d (.ok items) s =
          ⟨.Notified ALERT_SUBJECT
              (String.intercalate "\n"
                ((computeDelta TARGET_SEEDS s items).map (fun p => availLine p.1 p.2))),
            notifAfter TARGET_SEEDS s items, some (send_email_notification cfg d)⟩)
    ∧ (computeDelta TARGET_SEEDS s items = [] →
        check_stock cfg d (.ok items) s =
          ⟨.NoChange, notifAfter TARGET_SEEDS s items, none⟩) := by
  intro cfg d items s
  constructor
  · intro h
    rw [check_stock_ok_eq, if_neg h]
  · intro h
    rw [check_stock_ok_eq, if_pos h]

/-- Witness for `notification_single_batched` at the spec's Scenario A: one
email, body "Beanstalk: 3 available!", the zero-quantity item excluded. -/
theorem notification_single_batched_witness :
    check_stock ⟨false, none, none, none⟩ true
        (.ok [some ⟨"Beanstalk Seed", "Stock: 3"⟩, some ⟨"Ember Lily Seed", "Stock: 0"⟩]) ∅ =
      ⟨.Notified ALERT_SUBJECT
          (String.intercalate "\n"
            ((computeDelta TARGET_SEEDS ∅
                [some ⟨"Beanstalk Seed", "Stock: 3"⟩,
                  some ⟨"Ember Lily Seed", "Stock: 0"⟩]).map (fun p => availLine p.1 p.2))),
        notifAfter TARGET_SEEDS ∅
          [some ⟨"Beanstalk Seed", "Stock: 3"⟩, some ⟨"Ember Lily Seed", "Stock: 0"⟩],
        some (send_email_notification ⟨false, none, none, none⟩ true)⟩ :=
  (notification_single_batched ⟨false, none, none, none⟩ true
    [some ⟨"Beanstalk Seed", "Stock: 3"⟩, some ⟨"Ember Lily Seed", "Stock: 0"⟩] ∅).1
    (by decide)

/-- C10: a disabled flag or missing Gmail setting makes
`send_email_notification` return early with no delivery attempt (and it is
total, so it never raises), yet the cycle's delta names were already
inserted into `notified_seeds` during the loop, so they can never appear in
a later cycle's delta for the rest of the process lifetime — even if later
cycles run with a complete, enabled configuration. -/
theorem disabled_notifier_still_marks_notified :
    ∀ (cfg : EmailConfig) (d : Bool) (f : FetchResult) (s : Finset String) (name : String),
      (cfg.enable = false ∨ cfg.sender = none ∨ cfg.password = none ∨
        cfg.recipient = none) →
      (send_email_notification cfg d ≠ .sent ∧
        send_email_notification cfg d ≠ .sendFailed) ∧
      (name ∈ cycleDeltaNames f s →
        name ∈ (check_stock cfg d f s).notified ∧
        ∀ (rest : List (EmailConfig × Bool × FetchResult)) (g : FetchResult),
          name ∉ cycleDeltaNames g (runNotified rest (check_stock cfg d f s).notified)) := by
  intro cfg d f s name hcfg
  constructor
  · have hmail : send_email_notification cfg d = .disabled ∨
        send_email_notification cfg d = .incompleteConfig := by
      unfold send_email_notification
      by_cases he : cfg.enable = false
      · simp [he]
      · have hf : (optFalsy cfg.sender || optFalsy cfg.password ||
            optFalsy cfg.recipient) = true := by
          rcases hcfg with h | h | h | h
          · exact absurd h he
          all_goals simp [h, optFalsy]
        simp [he, hf]
    rcases hmail with h | h <;> rw [h] <;> exact ⟨by decide, by decide⟩
  · intro hmem
    refine ⟨mem_notified_of_mem_cycleDeltaNames hmem, fun rest g => ?_⟩
    exact not_mem_cycleDeltaNames_of_notified
      (subset_runNotified rest _ (mem_notified_of_mem_cycleDeltaNames hmem))

/-- Witness for `disabled_notifier_still_marks_notified`: email disabled,
"Sugar Apple" is marked and excluded from the next delta, even though the
next cycle observes it at quantity 9 with delivery possible. -/
theorem disabled_notifier_still_marks_notified_witness :
    (send_email_notification ⟨false, none, none, none⟩ true ≠ .sent ∧
      send_email_notification ⟨false, none, none, none⟩ true ≠ .sendFailed) ∧
    "Sugar Apple" ∉ cycleDeltaNames (.ok [some ⟨"Sugar Apple Seed", "Stock: 9"⟩])
      (runNotified []
        (check_stock ⟨false, none, none, none⟩ true
          (.ok [some ⟨"Sugar Apple Seed", "Stock: 7"⟩]) ∅).notified) :=
  ⟨(disabled_notifier_still_marks_notified ⟨false, none, none, none⟩ true
      (.ok [some ⟨"Sugar Apple Seed", "Stock: 7"⟩]) ∅ "Sugar Apple" (Or.inl rfl)).1,
    ((disabled_notifier_still_marks_notified ⟨false, none, none, none⟩ true
        (.ok [some ⟨"Sugar Apple Seed", "Stock: 7"⟩]) ∅ "Sugar Apple" (Or.inl rfl)).2
      (by decide)).2 [] (.ok [some ⟨"Sugar Apple Seed", "Stock: 9"⟩])⟩

end StockBot
